import Mathlib

/-!
Verification development for the dnf product-id plugin
(src/src/dnf-plugins/product-id/product-id.c).

The definitions below are a shallow embedding of the C source.  External
collaborators (zlib, OpenSSL, libdnf, librepo) are modelled by their observable
behaviour at the call sites the plugin uses: a gzFile becomes the sequence of
results its successive gzread calls deliver, the X.509 parser becomes an
oracle producing the textual OIDs of the certificate's extensions, and the
package queries become lists of nevra identity strings.
-/

set_option autoImplicit false

/-- Result of one gzread call on the compressed input stream: either a byte
count together with the bytes delivered (zlib returns at most the requested
CHUNK - 1 bytes), or a stream error, in which case gzread returns -1 and
gzerror subsequently reports a nonzero error code. -/
inductive ReadResult where
  | bytes (b : List Nat)
  | readError
  deriving DecidableEq

/-- Bytes of a C buffer as consumed by "%s" formatting: everything up to (and
excluding) the first NUL byte. -/
def cStr (b : List Nat) : List Nat := b.takeWhile (fun c => c != 0)

/-- Observable outcome of decompress: the TRUE/FALSE return value, the final
contents of the output GString, and the successive indices at which the
statement buffer[bytes_read] = 0 wrote the NUL terminator (as C int values:
gzread returns -1 on error). -/
structure DecompRes where
  ok : Bool
  output : List Nat
  nulIndices : List Int
  deriving DecidableEq

/-- Shallow embedding of decompress (product-id.c lines 609-634), faithful for
chunk = CHUNK ≥ 2.  Each loop iteration does
  bytes_read = gzread(input, buffer, CHUNK - 1);
  buffer[bytes_read] = 0;
  g_string_printf(output, "%s", buffer);
g_string_printf REPLACES the previous contents of output (it does not append),
and "%s" stops at the first NUL byte, so output holds cStr of the bytes of the
most recent read only.  The loop breaks with success when a read returns fewer
than CHUNK - 1 bytes and gzeof holds (modelled as: no further read results
remain), breaks with failure when gzerror reports an error (an error read,
which returned -1 and wrote the NUL at buffer[-1]; the output contents are
then unspecified in C since buffer was never filled - modelled as empty), and
otherwise keeps reading. -/
def decompress (chunk : Nat) : List ReadResult → DecompRes
  | [] =>
      -- gzread past the end of the stream returns 0 bytes and sets the EOF
      -- indicator: buffer[0] = 0, output becomes empty, loop breaks with TRUE
      { ok := true, output := [], nulIndices := [0] }
  | ReadResult.readError :: _ =>
      { ok := false, output := [], nulIndices := [-1] }
  | ReadResult.bytes b :: rest =>
      if b.length < chunk - 1 then
        if rest = [] then
          -- short read with end of stream reached: gzeof, break with TRUE
          { ok := true, output := cStr b, nulIndices := [(b.length : Int)] }
        else
          -- short read, not EOF, gzerror reports no error: keep looping
          let r := decompress chunk rest
          { ok := r.ok, output := r.output, nulIndices := (b.length : Int) :: r.nulIndices }
      else
        -- full read: keep looping
        let r := decompress chunk rest
        { ok := r.ok, output := r.output, nulIndices := (b.length : Int) :: r.nulIndices }

/-- Model of g_str_has_prefix: character-level prefix test (the OID strings
involved are ASCII, so bytes coincide with characters). -/
def gStrHasPfx (pfx s : String) : Bool :=
  pfx.data.isPrefixOf s.data

/-- Character-level splitting of a non-empty string on '.', as g_strsplit
does on its delimiter: each delimiter occurrence separates two (possibly
empty) tokens. -/
def splitOnDot : List Char → List (List Char)
  | [] => [[]]
  | c :: rest =>
      let r := splitOnDot rest
      if c == '.' then [] :: r
      else
        match r with
        | [] => [[c]]
        | h :: t => (c :: h) :: t

/-- Result of g_strsplit(s, ".", -1): the dot-separated components; as a glib
special case the empty string splits into an empty vector. -/
def gStrsplitDot (s : String) : List String :=
  if s = "" then [] else (splitOnDot s.data).map String.mk

/-- Severity of a diagnostic emitted through the plugin's logging macros. -/
inductive LogLevel where
  | debug
  | info
  | warn
  | error
  deriving DecidableEq

/-- Observable outcome of findProductId: the int return value (1 on success,
-1 on every failure), the final contents of the caller's result GString (the
caller passes in an empty GString; it is assigned only on success), and the
diagnostics emitted. -/
structure FindRes where
  retVal : Int
  result : String
  logs : List (LogLevel × String)
  deriving DecidableEq

/-- Loop over the certificate's extensions (product-id.c lines 559-590): the
first extension whose textual OID starts with the vendor prefix decides the
outcome and the loop breaks; none yields the not-found fall-through. -/
def findLoop (pfx : String) : List String → Option FindRes
  | [] => none
  | oid :: rest =>
      if gStrHasPfx pfx oid then
        some (
          let components := gStrsplitDot oid
          if 9 < components.length then
            { retVal := 1, result := components.getD 9 "",
              logs := [(LogLevel.debug, "ID of product certificate")] }
          else
            { retVal := -1, result := "",
              logs := [(LogLevel.error, "Product certificate does not contain required ID")] })
      else findLoop pfx rest

/-- Shallow embedding of findProductId (product-id.c lines 538-600) from the
extension-OID list onwards, parameterised by the vendor prefix
REDHAT_PRODUCT_OID (defined in a header not under src/).  The OpenSSL failure
branches (BIO_new_mem_buf or X509_get_ext returning NULL) are external
allocation failures and are not modelled. -/
def findProductId (pfx : String) (exts : List String) : FindRes :=
  match findLoop pfx exts with
  | some r => r
  | none =>
      { retVal := -1, result := "",
        logs := [(LogLevel.warn, "Red Hat Product OID not found")] }

/-- Shallow embedding of findProductId on raw PEM bytes: the X.509 parse
(PEM_read_bio_X509 plus OBJ_obj2txt) is an external oracle producing the
textual OIDs of the extensions, or none when the buffer does not parse, in
which case findProductId returns -1 before inspecting any extension. -/
def findProductIdPem (parse : List Nat → Option (List String)) (pfx : String)
    (content : List Nat) : FindRes :=
  match parse content with
  | none => { retVal := -1, result := "", logs := [] }
  | some exts => findProductId pfx exts

/-- Modelled from the spec: the ProductDb type.  Its implementation file
(productdb.c) is not under src/; §4.2 of the spec defines it as a persistent
mapping product_id (string) → set of repository_id (string), keys unique. -/
structure ProductDb where
  entries : List (String × List String)
  deriving DecidableEq

/-- Modelled from the spec: initProductDb constructs the in-memory database
empty (the spec's "constructed empty ... at the start of a reconciliation
pass"; the source never loads the persisted file - line 207 is a TODO). -/
def initProductDb : ProductDb := ⟨[]⟩

/-- Modelled from the spec: hasProductId tests whether a product_id has an
entry in the database. -/
def hasProductId (db : ProductDb) (productId : String) : Bool :=
  db.entries.any (fun e => e.1 == productId)

/-- Modelled from the spec: addRepoId records a (product_id, repo_id) pair.
Idempotent; a new repo_id is unioned into the product's set, a fresh
product_id gains a singleton set. -/
def addRepoId (db : ProductDb) (productId repoId : String) : ProductDb :=
  if hasProductId db productId then
    ⟨db.entries.map (fun e =>
      if e.1 == productId then
        (e.1, if e.2.contains repoId then e.2 else e.2 ++ [repoId])
      else e)⟩
  else
    ⟨db.entries ++ [(productId, [repoId])]⟩

/-- Model of g_str_has_suffix. -/
def gStrHasSuffix (s suffix : String) : Bool :=
  suffix.data.isSuffixOf s.data

/-- Model of g_strndup(file_name, strlen(file_name) - 4): the file name with
its last four bytes removed (file names here are ASCII, so bytes coincide
with characters). -/
def gStrndupStem (fileName : String) : String :=
  String.mk (fileName.data.take (fileName.data.length - 4))

/-- Decision taken by one iteration of the removeUnusedProductCerts loop
(product-id.c lines 98-124) for a directory entry: true iff g_remove is
called on it.  A name not ending in ".pem" is ignored; a stem with a
non-digit character is skipped with a diagnostic; a stem with a database
entry is kept; otherwise the file is removed. -/
def sweepDeletes (productDb : ProductDb) (fileName : String) : Bool :=
  if gStrHasSuffix fileName ".pem" then
    let product_id := gStrndupStem fileName
    let is_num := product_id.data.all (fun c => c.isDigit)
    if is_num = false then
      false
    else if hasProductId productDb product_id = false then
      true
    else
      false
  else
    false

/-- Shallow embedding of removeUnusedProductCerts (product-id.c lines
88-134): the directory entries on which g_remove is called, in listing
order.  Deletion failures and directory-listing errors are logged and do not
change which removals are attempted. -/
def removeUnusedProductCerts (productDb : ProductDb) (files : List String) : List String :=
  files.filter (fun f => sweepDeletes productDb f)

/-- An available package as seen through the dnf sack: the repository it
comes from (HY_PKG_REPONAME) and its nevra identity string. -/
structure Pkg where
  repoName : String
  nevra : String
  deriving DecidableEq

/-- Transient association of a repository with its freshly fetched productid
artifact (struct RepoProductId).  The artifact's local path is modelled by the
behaviour of the file found there: whether gzopen succeeds and the sequence of
gzread results its contents produce. -/
structure RepoProductId where
  repoId : String
  gzOpenOk : Bool
  artifact : List ReadResult
  deriving DecidableEq

/-- The package-query collaborators consumed by getActive: the dnf sack of
available packages and the rpmdb system-repo query result (nevra strings of
installed packages). -/
structure DnfCtx where
  sack : List Pkg
  installed : List String
  deriving DecidableEq

/-- A hy_query execution performed by getActive: the single rpmdb
installed-package query, or one available-package query per candidate
repository. -/
inductive QueryEv where
  | instQ
  | availQ (repoId : String)
  deriving DecidableEq

/-- Inner k-loop of getActive (product-id.c lines 358-368): scan the
installed packages for one with the same nevra, stopping at the first hit. -/
def nevraInstalled (pkgNevra : String) : List String → Bool
  | [] => false
  | inst :: rest => if pkgNevra == inst then true else nevraInstalled pkgNevra rest

/-- The j-loop of getActive (product-id.c lines 353-372): scan the available
packages of one repository and stop at the first one that is installed,
returning it (the package named in the "marked active" diagnostic). -/
def firstActivePkg (installedPackages : List String) : List String → Option String
  | [] => none
  | pkg :: rest =>
      if nevraInstalled pkg installedPackages then some pkg
      else firstActivePkg installedPackages rest

/-- Result of the hy_query on the dnf sack filtered by HY_PKG_REPONAME = the
repository's id: the nevra strings of the packages the repository makes
available. -/
def availOf (ctx : DnfCtx) (repoId : String) : List String :=
  (ctx.sack.filter (fun p => p.repoName == repoId)).map Pkg.nevra

/-- Observable outcome of getActive: the repositories appended to
activeRepoAndProductIds in order, the "marked active due to installed
package" diagnostics (repository id, package nevra), and the hy_query
executions in order. -/
structure GetActiveRes where
  active : List RepoProductId
  trace : List (String × String)
  queries : List QueryEv
  deriving DecidableEq

/-- Per-repository loop of getActive (product-id.c lines 338-375): each
candidate repository runs one available-package query; the repository is
appended to the active list iff one of its available packages is installed,
and the first such package is named in the diagnostic. -/
def getActiveGo (installedPackages : List String) (ctx : DnfCtx) :
    List RepoProductId → List RepoProductId × List (String × String) × List QueryEv
  | [] => ([], [], [])
  | rpid :: rest =>
      match firstActivePkg installedPackages (availOf ctx rpid.repoId) with
      | some pkg =>
          (rpid :: (getActiveGo installedPackages ctx rest).1,
           (rpid.repoId, pkg) :: (getActiveGo installedPackages ctx rest).2.1,
           QueryEv.availQ rpid.repoId :: (getActiveGo installedPackages ctx rest).2.2)
      | none =>
          ((getActiveGo installedPackages ctx rest).1,
           (getActiveGo installedPackages ctx rest).2.1,
           QueryEv.availQ rpid.repoId :: (getActiveGo installedPackages ctx rest).2.2)

/-- Shallow embedding of getActive (product-id.c lines 308-379): one rpmdb
query for the installed-package list, then the per-repository scan.  The
early return on dnf_sack_new allocation failure is an external allocation
failure and is not modelled. -/
def getActive (ctx : DnfCtx) (repoAndProductIds : List RepoProductId) : GetActiveRes :=
  let installedPackages := ctx.installed
  let r := getActiveGo installedPackages ctx repoAndProductIds
  { active := r.1, trace := r.2.1, queries := QueryEv.instQ :: r.2.2 }

/-- A repository as seen through the libdnf/librepo collaborators at the call
sites pluginHook uses: its id, its DNF_REPO_ENABLED_PACKAGES bit, whether
lr_result_getinfo yields a usable repomd (the getinfo-error and NULL-repomd
branches differ only in the message logged), whether the repomd has a
"productid" record, whether fetchProductId succeeds, and the behaviour of the
fetched artifact file (gzopen outcome and gzread results). -/
structure Repo where
  id : String
  enabledPackages : Bool
  repoMdOk : Bool
  hasProductIdRecord : Bool
  fetchOk : Bool
  gzOpenOk : Bool
  artifact : List ReadResult
  deriving DecidableEq

/-- Shallow embedding of getEnabled (product-id.c lines 293-301). -/
def getEnabled (repos : List Repo) : List Repo :=
  repos.filter (fun r => r.enabledPackages)

/-- The enabled-repository loop of pluginHook (product-id.c lines 211-244):
for each enabled repository with a usable repomd carrying a "productid"
record, fetchProductId is attempted and, on success, the RepoProductId entry
is appended to repoAndProductIds; every failure merely skips the repository. -/
def fetchLoop (repos : List Repo) : List RepoProductId :=
  (getEnabled repos).filterMap (fun repo =>
    if repo.repoMdOk then
      if repo.hasProductIdRecord then
        if repo.fetchOk then
          some { repoId := repo.id, gzOpenOk := repo.gzOpenOk, artifact := repo.artifact }
        else none
      else none
    else none)

/-- Observable outcome of installProductId: its return value, the database
after the call, the certificate files written (name, contents) and the
(product_id, repo_id) pairs recorded through addRepoId. -/
structure InstallRes where
  ret : Int
  db : ProductDb
  written : List (String × List Nat)
  recorded : List (String × String)
  deriving DecidableEq

/-- Shallow embedding of installProductId (product-id.c lines 474-529),
parameterised by the gzread chunk size, the X.509 parsing oracle, the vendor
OID prefix, and whether g_mkdir_with_parents(PRODUCT_CERT_DIR) fails.  Note
the source guards the install with `if (productIdFound)` where productIdFound
is findProductId's return value, which is 1 on success and -1 on failure -
both nonzero, so the guard passes in either case; on failure the result
GString still holds its initial empty string.  fopen failure is an external
I/O failure and is modelled as success. -/
def installProductId (chunk : Nat) (parse : List Nat → Option (List String))
    (pfx : String) (certDirMkFails : Bool) (rpid : RepoProductId)
    (productDb : ProductDb) : InstallRes :=
  if rpid.gzOpenOk = false then
    { ret := 0, db := productDb, written := [], recorded := [] }
  else
    let pemOutput := decompress chunk rpid.artifact
    if pemOutput.ok = false then
      { ret := 0, db := productDb, written := [], recorded := [] }
    else
      let fres := findProductIdPem parse pfx pemOutput.output
      if fres.retVal ≠ 0 then
        if certDirMkFails then
          { ret := 0, db := productDb, written := [], recorded := [] }
        else
          { ret := 1,
            db := addRepoId productDb fres.result rpid.repoId,
            written := [(fres.result ++ ".pem", pemOutput.output)],
            recorded := [(fres.result, rpid.repoId)] }
      else
        { ret := 0, db := productDb, written := [], recorded := [] }

/-- The active-repository loop of pluginHook (product-id.c lines 248-252):
installProductId on each active repository in order, threading the database
and collecting the files written and the pairs recorded. -/
def installLoop (chunk : Nat) (parse : List Nat → Option (List String))
    (pfx : String) (certDirMkFails : Bool) :
    List RepoProductId → ProductDb →
      ProductDb × List (String × List Nat) × List (String × String)
  | [], db => (db, [], [])
  | rpid :: rest, db =>
      let r := installProductId chunk parse pfx certDirMkFails rpid db
      let rs := installLoop chunk parse pfx certDirMkFails rest r.db
      (rs.1, r.written ++ rs.2.1, r.recorded ++ rs.2.2)

/-- The libdnf hook identifiers dispatched to pluginHook. -/
inductive HookId where
  | preConf
  | conf
  | preTransaction
  | transaction
  | preReposReload
  deriving DecidableEq

/-- The environment of one pluginHook invocation: the hook id, whether the
plugin handle was allocated, whether g_mkdir_with_parents(PRODUCTDB_DIR)
fails, the repository list (none models dnf_context_get_repos returning
NULL), the package-query collaborators, whether creating PRODUCT_CERT_DIR
fails inside installProductId, the names in the product-certificate
directory at sweep time, and the persisted on-disk database (listed here
because it is process-wide state; the source never reads it - line 207 is a
TODO). -/
structure HookInput where
  hookId : HookId
  handleOk : Bool
  mkdirDbFails : Bool
  repos : Option (List Repo)
  ctx : DnfCtx
  certDirMkFails : Bool
  certDir : List String
  persistedDb : ProductDb
  deriving DecidableEq

/-- Observable outcome of one pluginHook invocation: the return value handed
back to libdnf, whether dnf_context_get_repos ran, the RepoProductId entries
fetched, the active entries, the database state the sweep consults, the
certificate files written, the (product_id, repo_id) pairs recorded, whether
the sweep ran and which files it removed, and whether writeRepoMap ran. -/
structure HookRes where
  retVal : Int
  gotRepos : Bool
  fetched : List RepoProductId
  active : List RepoProductId
  dbAtSweep : ProductDb
  written : List (String × List Nat)
  recorded : List (String × String)
  sweepRan : Bool
  deleted : List String
  dbWritten : Bool
  deriving DecidableEq

/-- A HookRes for the paths of pluginHook on which the transaction work does
not run. -/
def emptyHookRes (retVal : Int) (gotRepos : Bool) : HookRes :=
  { retVal := retVal, gotRepos := gotRepos, fetched := [], active := [],
    dbAtSweep := initProductDb, written := [], recorded := [],
    sweepRan := false, deleted := [], dbWritten := false }

/-- Shallow embedding of pluginHook (product-id.c lines 170-277),
parameterised like installProductId.  A NULL handle returns 0 at once; any
hook other than CONTEXT_TRANSACTION does nothing; failure to create
PRODUCTDB_DIR returns 1 before the repository list is read; a NULL repository
list returns 1; otherwise the pass runs getEnabled, the fetch loop, getActive,
the install loop starting from an empty database, the certificate sweep
against the database as mutated by the installs, and writeRepoMap, and
returns 1. -/
def pluginHook (chunk : Nat) (parse : List Nat → Option (List String))
    (pfx : String) (inp : HookInput) : HookRes :=
  if inp.handleOk = false then
    emptyHookRes 0 false
  else if inp.hookId = HookId.transaction then
    if inp.mkdirDbFails then
      emptyHookRes 1 false
    else
      match inp.repos with
      | none => emptyHookRes 1 true
      | some repos =>
          let repoAndProductIds := fetchLoop repos
          let gar := getActive inp.ctx repoAndProductIds
          let ins := installLoop chunk parse pfx inp.certDirMkFails gar.active initProductDb
          let deleted := removeUnusedProductCerts ins.1 inp.certDir
          { retVal := 1, gotRepos := true, fetched := repoAndProductIds,
            active := gar.active, dbAtSweep := ins.1, written := ins.2.1,
            recorded := ins.2.2, sweepRan := true, deleted := deleted,
            dbWritten := true }
  else
    emptyHookRes 1 false

/-- A concrete X.509 parsing oracle: every buffer parses to a certificate
with a single extension carrying the vendor OID with product id 69. -/
def wParse : List Nat → Option (List String) :=
  fun _ => some ["1.3.6.1.4.1.2312.9.1.69.1.1.1"]

/-- A concrete repository: enabled, with a productid record, fetch and gzopen
succeeding, and an artifact of one short chunk. -/
def wRepo : Repo :=
  ⟨"repo-a", true, true, true, true, true, [ReadResult.bytes [80]]⟩

/-- A concrete transaction-hook environment: repo-a is enabled and supplies
the one installed package, the certificate directory holds a stale 99.pem and
a live 69.pem, and the persisted database still references product 99. -/
def wHookInput : HookInput :=
  { hookId := HookId.transaction, handleOk := true, mkdirDbFails := false,
    repos := some [wRepo],
    ctx := ⟨[⟨"repo-a", "foo-1.0-1.x86_64"⟩], ["foo-1.0-1.x86_64"]⟩,
    certDirMkFails := false, certDir := ["99.pem", "69.pem"],
    persistedDb := ⟨[("99", ["old-repo"])]⟩ }

/-- The same environment with creation of the productdb directory failing. -/
def wFailHookInput : HookInput :=
  { wHookInput with mkdirDbFails := true }

/-! ## Theorems -/

/-- C8: decompress returns failure exactly when the underlying stream reports
an error before end-of-stream is reached, and returns success on reaching
end-of-stream regardless of whether the final chunk read was shorter than the
chunk size (the model is faithful for the source's CHUNK ≥ 2). -/
theorem decompress_ok_iff_no_read_error (chunk : Nat) (_hch : 2 ≤ chunk)
    (reads : List ReadResult) :
    (decompress chunk reads).ok = true ↔ ReadResult.readError ∉ reads := by
  induction reads with
  | nil => simp [decompress]
  | cons hd tl ih =>
    cases hd with
    | readError => simp [decompress]
    | bytes b =>
      by_cases h1 : b.length < chunk - 1
      · by_cases h2 : tl = []
        · subst h2; simp [decompress, h1]
        · simp [decompress, h1, h2, ih]
      · simp [decompress, h1, ih]

/-- Witness for decompress_ok_iff_no_read_error at chunk 4 and a stream whose
final (only) chunk is short. -/
theorem decompress_ok_iff_no_read_error_witness :
    (decompress 4 [ReadResult.bytes [65]]).ok = true ↔
      ReadResult.readError ∉ [ReadResult.bytes [65]] :=
  decompress_ok_iff_no_read_error 4 (by decide) [ReadResult.bytes [65]]

/-- C1 (code bug): at chunk size 4 a stream delivering the two chunks
[65, 66, 67] and [68] decompresses "successfully" to [68] - g_string_printf
replaces the output instead of appending, so every chunk but the last is
dropped - and a single short chunk [65, 0] yields [65], truncated at the
embedded NUL byte; neither equals the verbatim concatenation of the chunks. -/
theorem decompress_overwrites_output :
    (decompress 4 [ReadResult.bytes [65, 66, 67], ReadResult.bytes [68]]).ok = true ∧
    (decompress 4 [ReadResult.bytes [65, 66, 67], ReadResult.bytes [68]]).output = [68] ∧
    (decompress 4 [ReadResult.bytes [65, 66, 67], ReadResult.bytes [68]]).output ≠
      [65, 66, 67] ++ [68] ∧
    (decompress 4 [ReadResult.bytes [65, 0]]).ok = true ∧
    (decompress 4 [ReadResult.bytes [65, 0]]).output = [65] ∧
    (decompress 4 [ReadResult.bytes [65, 0]]).output ≠ [65, 0] := by decide

/-- C10 (code bug): when the first gzread reports an error it returns -1, and
the unguarded write buffer[bytes_read] = 0 uses index -1, outside the
buffer's bounds. -/
theorem decompress_error_nul_index_neg :
    (decompress 4 [ReadResult.readError]).nulIndices = [-1] ∧
    ∃ i ∈ (decompress 4 [ReadResult.readError]).nulIndices, i < 0 := by decide

/-- Unfolding equation of findLoop on a nonempty extension list. -/
theorem findLoop_cons (pfx oid : String) (rest : List String) :
    findLoop pfx (oid :: rest) =
      (if gStrHasPfx pfx oid then
        some
          (let components := gStrsplitDot oid
           if 9 < components.length then
             { retVal := 1, result := components.getD 9 "",
               logs := [(LogLevel.debug, "ID of product certificate")] }
           else
             { retVal := -1, result := "",
               logs := [(LogLevel.error, "Product certificate does not contain required ID")] })
      else findLoop pfx rest) := rfl

/-- The findProductId extension loop ignores a block of extensions none of
whose OIDs start with the vendor prefix. -/
theorem findLoop_eq_of_no_match (pfx : String) (l1 l2 : List String)
    (h : ∀ o ∈ l1, gStrHasPfx pfx o = false) :
    findLoop pfx (l1 ++ l2) = findLoop pfx l2 := by
  induction l1 with
  | nil => rfl
  | cons o rest ih =>
    have ho := h o (by simp)
    rw [List.cons_append, findLoop_cons, ho]
    simp only [Bool.false_eq_true, if_false]
    exact ih (fun x hx => h x (by simp [hx]))

/-- C3: the product-id extraction scans the extensions in order; the first
extension whose OID starts with the vendor prefix yields, when its OID has at
least 10 dot-separated components, return value 1 and the component at index
9, and the extensions after that first match do not affect the outcome. -/
theorem findProductId_first_matching_oid (pfx : String) (l1 l2 : List String)
    (oid : String)
    (h1 : ∀ o ∈ l1, gStrHasPfx pfx o = false)
    (h2 : gStrHasPfx pfx oid = true)
    (h3 : 9 < (gStrsplitDot oid).length) :
    (findProductId pfx (l1 ++ oid :: l2)).retVal = 1 ∧
    (findProductId pfx (l1 ++ oid :: l2)).result = (gStrsplitDot oid).getD 9 "" ∧
    findProductId pfx (l1 ++ oid :: l2) = findProductId pfx (l1 ++ [oid]) := by
  have e3 : ∀ tl : List String, findLoop pfx (oid :: tl) =
      some { retVal := 1, result := (gStrsplitDot oid).getD 9 "",
             logs := [(LogLevel.debug, "ID of product certificate")] } := by
    intro tl
    rw [findLoop_cons, h2]
    simp [h3]
  have e1 : findLoop pfx (l1 ++ oid :: l2) = _ :=
    (findLoop_eq_of_no_match pfx l1 (oid :: l2) h1).trans (e3 l2)
  have e2 : findLoop pfx (l1 ++ [oid]) = _ :=
    (findLoop_eq_of_no_match pfx l1 [oid] h1).trans (e3 [])
  refine ⟨?_, ?_, ?_⟩ <;> simp [findProductId, e1, e2]

/-- Witness for findProductId_first_matching_oid: a certificate whose second
extension is the vendor OID with 13 components (index 9 being "69") and whose
third extension also matches. -/
theorem findProductId_first_matching_oid_witness :
    (findProductId "1.3.6.1.4.1.2312.9"
        (["2.5.29.19"] ++ "1.3.6.1.4.1.2312.9.1.69.1.1.1" ::
          ["1.3.6.1.4.1.2312.9.1.70.1.1.1"])).retVal = 1 ∧
    (findProductId "1.3.6.1.4.1.2312.9"
        (["2.5.29.19"] ++ "1.3.6.1.4.1.2312.9.1.69.1.1.1" ::
          ["1.3.6.1.4.1.2312.9.1.70.1.1.1"])).result =
      (gStrsplitDot "1.3.6.1.4.1.2312.9.1.69.1.1.1").getD 9 "" ∧
    findProductId "1.3.6.1.4.1.2312.9"
        (["2.5.29.19"] ++ "1.3.6.1.4.1.2312.9.1.69.1.1.1" ::
          ["1.3.6.1.4.1.2312.9.1.70.1.1.1"]) =
      findProductId "1.3.6.1.4.1.2312.9" (["2.5.29.19"] ++ ["1.3.6.1.4.1.2312.9.1.69.1.1.1"]) :=
  findProductId_first_matching_oid "1.3.6.1.4.1.2312.9" ["2.5.29.19"]
    ["1.3.6.1.4.1.2312.9.1.70.1.1.1"] "1.3.6.1.4.1.2312.9.1.69.1.1.1"
    (by decide) (by decide) (by decide)

/-- C6 (counterexample): a certificate without the vendor OID and a
certificate whose vendor OID has fewer than 10 components produce identical
results in everything findProductId delivers to its caller - the same return
value -1 and the same (empty) result string - so the two failure outcomes are
not distinguishable in the result delivered to the caller. -/
theorem findProductId_failures_same_result :
    (findProductId "1.3.6.1.4.1.2312.9" ["2.5.29.19"]).retVal = -1 ∧
    (findProductId "1.3.6.1.4.1.2312.9" ["1.3.6.1.4.1.2312.9"]).retVal = -1 ∧
    (findProductId "1.3.6.1.4.1.2312.9" ["2.5.29.19"]).retVal =
      (findProductId "1.3.6.1.4.1.2312.9" ["1.3.6.1.4.1.2312.9"]).retVal ∧
    (findProductId "1.3.6.1.4.1.2312.9" ["2.5.29.19"]).result =
      (findProductId "1.3.6.1.4.1.2312.9" ["1.3.6.1.4.1.2312.9"]).result := by decide

/-- C6 (amended): both failure cases return -1 to the caller - the value does
not distinguish them - but the two cases are distinguishable in the emitted
diagnostics: a missing vendor OID logs a warning-level message and a first
matching OID with fewer than 10 components logs an error-level message. -/
theorem findProductId_failure_modes (pfx : String) (extsA l1 l2 : List String)
    (oid : String)
    (hA : ∀ o ∈ extsA, gStrHasPfx pfx o = false)
    (hB1 : ∀ o ∈ l1, gStrHasPfx pfx o = false)
    (hB2 : gStrHasPfx pfx oid = true)
    (hB3 : (gStrsplitDot oid).length ≤ 9) :
    (findProductId pfx extsA).retVal = -1 ∧
    (findProductId pfx (l1 ++ oid :: l2)).retVal = -1 ∧
    (findProductId pfx extsA).logs = [(LogLevel.warn, "Red Hat Product OID not found")] ∧
    (findProductId pfx (l1 ++ oid :: l2)).logs =
      [(LogLevel.error, "Product certificate does not contain required ID")] ∧
    (findProductId pfx extsA).logs ≠ (findProductId pfx (l1 ++ oid :: l2)).logs := by
  have eA : findLoop pfx extsA = none := by
    have h := findLoop_eq_of_no_match pfx extsA [] hA
    rw [List.append_nil] at h
    exact h
  have eB : findLoop pfx (l1 ++ oid :: l2) =
      some { retVal := -1, result := "",
             logs := [(LogLevel.error, "Product certificate does not contain required ID")] } := by
    rw [findLoop_eq_of_no_match pfx l1 (oid :: l2) hB1]
    have hlt : ¬ 9 < (gStrsplitDot oid).length := Nat.not_lt.mpr hB3
    rw [findLoop_cons, hB2]
    simp [hlt]
  refine ⟨?_, ?_, ?_, ?_, ?_⟩ <;> simp [findProductId, eA, eB]

/-- Witness for findProductId_failure_modes: a certificate with only a basic
constraints extension, and a certificate whose first (only) extension is the
bare 8-component vendor OID. -/
theorem findProductId_failure_modes_witness :
    (findProductId "1.3.6.1.4.1.2312.9" ["2.5.29.19"]).retVal = -1 ∧
    (findProductId "1.3.6.1.4.1.2312.9" ([] ++ "1.3.6.1.4.1.2312.9" :: [])).retVal = -1 ∧
    (findProductId "1.3.6.1.4.1.2312.9" ["2.5.29.19"]).logs =
      [(LogLevel.warn, "Red Hat Product OID not found")] ∧
    (findProductId "1.3.6.1.4.1.2312.9" ([] ++ "1.3.6.1.4.1.2312.9" :: [])).logs =
      [(LogLevel.error, "Product certificate does not contain required ID")] ∧
    (findProductId "1.3.6.1.4.1.2312.9" ["2.5.29.19"]).logs ≠
      (findProductId "1.3.6.1.4.1.2312.9" ([] ++ "1.3.6.1.4.1.2312.9" :: [])).logs :=
  findProductId_failure_modes "1.3.6.1.4.1.2312.9" ["2.5.29.19"] [] []
    "1.3.6.1.4.1.2312.9" (by decide) (by decide) (by decide) (by decide)

/-- Characterisation of one sweep decision: g_remove is called on a directory
entry iff its name ends in ".pem", its stem is all ASCII digits, and the stem
has no entry in the product database. -/
theorem sweepDeletes_eq_true (productDb : ProductDb) (f : String) :
    sweepDeletes productDb f = true ↔
      gStrHasSuffix f ".pem" = true ∧
      (gStrndupStem f).data.all (fun c => c.isDigit) = true ∧
      hasProductId productDb (gStrndupStem f) = false := by
  unfold sweepDeletes
  by_cases h1 : gStrHasSuffix f ".pem"
  · by_cases h2 : (gStrndupStem f).data.all (fun c => c.isDigit)
    · by_cases h3 : hasProductId productDb (gStrndupStem f)
      · simp [h1, h2, h3]
      · simp [h1, h2, h3]
    · simp [h1, h2]
  · simp [h1]

/-- C4: the sweep deletes exactly the directory entries ending in ".pem"
whose stem consists solely of ASCII digits and has no entry in the database;
files whose stem is referenced in the database, and files whose stem is
non-numeric, are never deleted, regardless of database contents. -/
theorem removeUnusedProductCerts_deletes_iff (productDb : ProductDb)
    (files : List String) (f : String) :
    f ∈ removeUnusedProductCerts productDb files ↔
      f ∈ files ∧ gStrHasSuffix f ".pem" = true ∧
        (gStrndupStem f).data.all (fun c => c.isDigit) = true ∧
        hasProductId productDb (gStrndupStem f) = false := by
  unfold removeUnusedProductCerts
  rw [List.mem_filter, sweepDeletes_eq_true]

/-- The inner installed-package scan of getActive succeeds iff the package's
nevra is among the installed packages. -/
theorem nevraInstalled_eq_true (p : String) (l : List String) :
    nevraInstalled p l = true ↔ p ∈ l := by
  induction l with
  | nil => simp [nevraInstalled]
  | cons a t ih =>
    unfold nevraInstalled
    by_cases h : p = a
    · subst h; simp
    · simp [h, ih]

/-- The per-repository scan of getActive finds a package iff some available
package is installed. -/
theorem firstActivePkg_isSome_iff (inst l : List String) :
    (firstActivePkg inst l).isSome = true ↔ ∃ p ∈ l, p ∈ inst := by
  induction l with
  | nil => simp [firstActivePkg]
  | cons a t ih =>
    unfold firstActivePkg
    by_cases h : nevraInstalled a inst = true
    · rw [if_pos h]
      simp only [Option.isSome_some, true_iff]
      exact ⟨a, by simp, (nevraInstalled_eq_true a inst).mp h⟩
    · rw [if_neg h, ih]
      constructor
      · rintro ⟨p, hp, hpi⟩
        exact ⟨p, by simp [hp], hpi⟩
      · rintro ⟨p, hp, hpi⟩
        rcases List.mem_cons.mp hp with rfl | hp2
        · exact absurd ((nevraInstalled_eq_true p inst).mpr hpi) h
        · exact ⟨p, hp2, hpi⟩

/-- When the per-repository scan of getActive returns a package, it is the
first available package with an installed match: everything before it in the
available list is not installed. -/
theorem firstActivePkg_eq_some (inst l : List String) (p : String)
    (h : firstActivePkg inst l = some p) :
    ∃ l1 l2, l = l1 ++ p :: l2 ∧ p ∈ inst ∧ ∀ q ∈ l1, q ∉ inst := by
  induction l with
  | nil => simp [firstActivePkg] at h
  | cons a t ih =>
    unfold firstActivePkg at h
    by_cases ha : nevraInstalled a inst = true
    · rw [if_pos ha] at h
      obtain rfl : a = p := by injection h
      exact ⟨[], t, rfl, (nevraInstalled_eq_true _ inst).mp ha, by simp⟩
    · rw [if_neg ha] at h
      obtain ⟨l1, l2, rfl, hp, hl1⟩ := ih h
      refine ⟨a :: l1, l2, rfl, hp, ?_⟩
      intro q hq
      rcases List.mem_cons.mp hq with rfl | hq2
      · exact fun hqi => ha ((nevraInstalled_eq_true q inst).mpr hqi)
      · exact hl1 q hq2

/-- Unfolding equation of the getActive per-repository loop when the scan of
one repository finds an installed match. -/
theorem getActiveGo_cons_some (instP : List String) (ctx : DnfCtx)
    (hd : RepoProductId) (tl : List RepoProductId) (pkg : String)
    (h : firstActivePkg instP (availOf ctx hd.repoId) = some pkg) :
    getActiveGo instP ctx (hd :: tl) =
      (hd :: (getActiveGo instP ctx tl).1,
       (hd.repoId, pkg) :: (getActiveGo instP ctx tl).2.1,
       QueryEv.availQ hd.repoId :: (getActiveGo instP ctx tl).2.2) := by
  simp only [getActiveGo]
  rw [h]

/-- Unfolding equation of the getActive per-repository loop when the scan of
one repository finds no installed match. -/
theorem getActiveGo_cons_none (instP : List String) (ctx : DnfCtx)
    (hd : RepoProductId) (tl : List RepoProductId)
    (h : firstActivePkg instP (availOf ctx hd.repoId) = none) :
    getActiveGo instP ctx (hd :: tl) =
      ((getActiveGo instP ctx tl).1,
       (getActiveGo instP ctx tl).2.1,
       QueryEv.availQ hd.repoId :: (getActiveGo instP ctx tl).2.2) := by
  simp only [getActiveGo]
  rw [h]

/-- Membership in getActive's per-repository loop output. -/
theorem getActiveGo_active_mem (instP : List String) (ctx : DnfCtx)
    (rpids : List RepoProductId) (rpid : RepoProductId) :
    rpid ∈ (getActiveGo instP ctx rpids).1 ↔
      rpid ∈ rpids ∧ (firstActivePkg instP (availOf ctx rpid.repoId)).isSome = true := by
  induction rpids with
  | nil => simp [getActiveGo]
  | cons hd tl ih =>
    cases h : firstActivePkg instP (availOf ctx hd.repoId) with
    | some pkg =>
      rw [getActiveGo_cons_some instP ctx hd tl pkg h]
      simp only [List.mem_cons, ih]
      constructor
      · rintro (rfl | ⟨htl, hsome⟩)
        · exact ⟨Or.inl rfl, by rw [h]; rfl⟩
        · exact ⟨Or.inr htl, hsome⟩
      · rintro ⟨rfl | htl, hsome⟩
        · exact Or.inl rfl
        · exact Or.inr ⟨htl, hsome⟩
    | none =>
      rw [getActiveGo_cons_none instP ctx hd tl h]
      rw [ih]
      constructor
      · rintro ⟨htl, hsome⟩
        exact ⟨List.mem_cons_of_mem hd htl, hsome⟩
      · rintro ⟨hmem, hsome⟩
        rcases List.mem_cons.mp hmem with rfl | htl
        · rw [h] at hsome; cases hsome
        · exact ⟨htl, hsome⟩

/-- Every "marked active" diagnostic of getActive names the first available
package of that repository that has an installed match. -/
theorem getActiveGo_trace_mem (instP : List String) (ctx : DnfCtx)
    (rpids : List RepoProductId) (rid pkg : String)
    (h : (rid, pkg) ∈ (getActiveGo instP ctx rpids).2.1) :
    firstActivePkg instP (availOf ctx rid) = some pkg := by
  induction rpids with
  | nil => simp [getActiveGo] at h
  | cons hd tl ih =>
    cases hh : firstActivePkg instP (availOf ctx hd.repoId) with
    | some p0 =>
      rw [getActiveGo_cons_some instP ctx hd tl p0 hh] at h
      rcases List.mem_cons.mp h with heq | htl
      · injection heq with h1 h2
        subst h1
        subst h2
        exact hh
      · exact ih htl
    | none =>
      rw [getActiveGo_cons_none instP ctx hd tl hh] at h
      exact ih h

/-- The per-repository loop of getActive never queries the installed set. -/
theorem getActiveGo_no_instQ (instP : List String) (ctx : DnfCtx)
    (rpids : List RepoProductId) :
    QueryEv.instQ ∉ (getActiveGo instP ctx rpids).2.2 := by
  induction rpids with
  | nil => simp [getActiveGo]
  | cons hd tl ih =>
    cases h : firstActivePkg instP (availOf ctx hd.repoId) with
    | some pkg =>
      rw [getActiveGo_cons_some instP ctx hd tl pkg h]
      simp [ih]
    | none =>
      rw [getActiveGo_cons_none instP ctx hd tl h]
      simp [ih]

/-- C2: a repository with a fetched productid entry is marked active iff at
least one package it makes available (by nevra identity) equals an installed
package; the installed-package set is queried exactly once per getActive pass
(not once per repository); and each "marked active" diagnostic names the
first available package with an installed match, everything scanned before it
having none. -/
theorem getActive_active_iff_installed_match (ctx : DnfCtx)
    (rpids : List RepoProductId) (rpid : RepoProductId) (hmem : rpid ∈ rpids) :
    (rpid ∈ (getActive ctx rpids).active ↔
        ∃ p ∈ availOf ctx rpid.repoId, p ∈ ctx.installed) ∧
    (getActive ctx rpids).queries.count QueryEv.instQ = 1 ∧
    (∀ rid pkg, (rid, pkg) ∈ (getActive ctx rpids).trace →
        ∃ l1 l2, availOf ctx rid = l1 ++ pkg :: l2 ∧ pkg ∈ ctx.installed ∧
          ∀ q ∈ l1, q ∉ ctx.installed) := by
  refine ⟨?_, ?_, ?_⟩
  · rw [show (getActive ctx rpids).active = (getActiveGo ctx.installed ctx rpids).1 from rfl]
    rw [getActiveGo_active_mem, firstActivePkg_isSome_iff]
    simp [hmem]
  · rw [show (getActive ctx rpids).queries =
        QueryEv.instQ :: (getActiveGo ctx.installed ctx rpids).2.2 from rfl]
    rw [List.count_cons_self]
    rw [List.count_eq_zero.mpr (getActiveGo_no_instQ ctx.installed ctx rpids)]
  · intro rid pkg htr
    have h := getActiveGo_trace_mem ctx.installed ctx rpids rid pkg htr
    exact firstActivePkg_eq_some ctx.installed (availOf ctx rid) pkg h

/-- Witness for getActive_active_iff_installed_match: one candidate
repository supplying one installed package. -/
theorem getActive_active_iff_installed_match_witness :
    ((⟨"repo-a", true, []⟩ : RepoProductId) ∈
        (getActive ⟨[⟨"repo-a", "foo-1.0-1.x86_64"⟩], ["foo-1.0-1.x86_64"]⟩
          [⟨"repo-a", true, []⟩]).active ↔
      ∃ p ∈ availOf ⟨[⟨"repo-a", "foo-1.0-1.x86_64"⟩], ["foo-1.0-1.x86_64"]⟩
          (⟨"repo-a", true, []⟩ : RepoProductId).repoId,
        p ∈ (⟨[⟨"repo-a", "foo-1.0-1.x86_64"⟩], ["foo-1.0-1.x86_64"]⟩ : DnfCtx).installed) ∧
    (getActive ⟨[⟨"repo-a", "foo-1.0-1.x86_64"⟩], ["foo-1.0-1.x86_64"]⟩
        [⟨"repo-a", true, []⟩]).queries.count QueryEv.instQ = 1 ∧
    (∀ rid pkg,
        (rid, pkg) ∈ (getActive ⟨[⟨"repo-a", "foo-1.0-1.x86_64"⟩], ["foo-1.0-1.x86_64"]⟩
          [⟨"repo-a", true, []⟩]).trace →
        ∃ l1 l2, availOf ⟨[⟨"repo-a", "foo-1.0-1.x86_64"⟩], ["foo-1.0-1.x86_64"]⟩ rid =
            l1 ++ pkg :: l2 ∧
          pkg ∈ (⟨[⟨"repo-a", "foo-1.0-1.x86_64"⟩], ["foo-1.0-1.x86_64"]⟩ : DnfCtx).installed ∧
          ∀ q ∈ l1, q ∉ (⟨[⟨"repo-a", "foo-1.0-1.x86_64"⟩],
            ["foo-1.0-1.x86_64"]⟩ : DnfCtx).installed) :=
  getActive_active_iff_installed_match
    ⟨[⟨"repo-a", "foo-1.0-1.x86_64"⟩], ["foo-1.0-1.x86_64"]⟩
    [⟨"repo-a", true, []⟩] ⟨"repo-a", true, []⟩ (by simp)

/-- A product database holds a product id iff it is among the entry keys. -/
theorem hasProductId_iff_mem_keys (db : ProductDb) (q : String) :
    hasProductId db q = true ↔ q ∈ db.entries.map Prod.fst := by
  unfold hasProductId
  rw [List.any_eq_true]
  constructor
  · rintro ⟨e, he, hq⟩
    exact List.mem_map.mpr ⟨e, he, beq_iff_eq.mp hq⟩
  · intro hq
    obtain ⟨e, he, hq2⟩ := List.mem_map.mp hq
    exact ⟨e, he, beq_iff_eq.mpr hq2⟩

/-- addRepoId leaves the key list unchanged when the product is present and
appends the product otherwise. -/
theorem addRepoId_keys (db : ProductDb) (p r : String) :
    (addRepoId db p r).entries.map Prod.fst =
      (if hasProductId db p = true then db.entries.map Prod.fst
       else db.entries.map Prod.fst ++ [p]) := by
  unfold addRepoId
  by_cases h : hasProductId db p = true
  · rw [if_pos h, if_pos h]
    rw [List.map_map]
    apply List.map_congr_left
    intro e _
    by_cases hep : (e.1 == p) = true
    · simp [hep, Function.comp]
    · simp [hep, Function.comp]
  · rw [if_neg h, if_neg h]
    simp

/-- Recording a pair makes its product id present and preserves every product
id that was present. -/
theorem hasProductId_addRepoId_iff (db : ProductDb) (p r q : String) :
    hasProductId (addRepoId db p r) q = true ↔ q = p ∨ hasProductId db q = true := by
  rw [hasProductId_iff_mem_keys, hasProductId_iff_mem_keys, addRepoId_keys]
  by_cases h : hasProductId db p = true
  · rw [if_pos h]
    constructor
    · exact Or.inr
    · rintro (rfl | hq)
      · exact (hasProductId_iff_mem_keys db q).mp h
      · exact hq
  · rw [if_neg h]
    simp [or_comm]

/-- The pass-scoped database starts empty. -/
theorem hasProductId_init (q : String) : hasProductId initProductDb q = false := rfl

/-- The stem of an installed certificate file name is the product id. -/
theorem gStrndupStem_append_pem (p : String) : gStrndupStem (p ++ ".pem") = p := by
  show String.mk (((p ++ ".pem").data).take ((p ++ ".pem").data.length - 4)) = p
  have hd : (p ++ ".pem").data = p.data ++ ['.', 'p', 'e', 'm'] := rfl
  rw [hd]
  have hlen : (p.data ++ ['.', 'p', 'e', 'm']).length - 4 = p.data.length := by
    simp [List.length_append]
  rw [hlen]
  have ht : (p.data ++ ['.', 'p', 'e', 'm']).take p.data.length = p.data :=
    List.take_left p.data ['.', 'p', 'e', 'm']
  rw [ht]

/-- installProductId makes a product id present iff it was recorded by the
call or already present. -/
theorem installProductId_has_iff (chunk : Nat) (parse : List Nat → Option (List String))
    (pfx : String) (cdm : Bool) (rpid : RepoProductId) (db : ProductDb) (q : String) :
    hasProductId (installProductId chunk parse pfx cdm rpid db).db q = true ↔
      q ∈ (installProductId chunk parse pfx cdm rpid db).recorded.map Prod.fst ∨
        hasProductId db q = true := by
  unfold installProductId
  by_cases h1 : rpid.gzOpenOk = false
  · simp [h1]
  · rw [if_neg h1]
    by_cases h2 : (decompress chunk rpid.artifact).ok = false
    · simp [h2]
    · rw [if_neg h2]
      by_cases h3 :
          (findProductIdPem parse pfx (decompress chunk rpid.artifact).output).retVal ≠ 0
      · rw [if_pos h3]
        by_cases h4 : cdm
        · simp [h4]
        · rw [if_neg h4]
          simp only [List.map_cons, List.map_nil, List.mem_cons, List.not_mem_nil, or_false]
          rw [hasProductId_addRepoId_iff]
      · rw [if_neg h3]
        simp

/-- The install loop makes a product id present iff it was recorded during
the loop or already present. -/
theorem installLoop_has_iff (chunk : Nat) (parse : List Nat → Option (List String))
    (pfx : String) (cdm : Bool) (active : List RepoProductId) (db : ProductDb)
    (q : String) :
    hasProductId (installLoop chunk parse pfx cdm active db).1 q = true ↔
      q ∈ (installLoop chunk parse pfx cdm active db).2.2.map Prod.fst ∨
        hasProductId db q = true := by
  induction active generalizing db with
  | nil => simp [installLoop]
  | cons hd tl ih =>
    simp only [installLoop, List.map_append, List.mem_append]
    rw [ih, installProductId_has_iff]
    tauto

/-- Every pair recorded by the install loop has its product id present in the
loop's final database. -/
theorem installLoop_recorded_has (chunk : Nat) (parse : List Nat → Option (List String))
    (pfx : String) (cdm : Bool) (active : List RepoProductId) (db : ProductDb)
    (p rid : String)
    (h : (p, rid) ∈ (installLoop chunk parse pfx cdm active db).2.2) :
    hasProductId (installLoop chunk parse pfx cdm active db).1 p = true := by
  rw [installLoop_has_iff]
  left
  exact List.mem_map.mpr ⟨(p, rid), h, rfl⟩

/-- Unfolding equation of pluginHook on a NULL plugin handle. -/
theorem pluginHook_no_handle_eq (chunk : Nat) (parse : List Nat → Option (List String))
    (pfx : String) (inp : HookInput) (hh : inp.handleOk = false) :
    pluginHook chunk parse pfx inp = emptyHookRes 0 false := by
  unfold pluginHook
  rw [hh]
  simp

/-- Unfolding equation of pluginHook on a hook other than
CONTEXT_TRANSACTION. -/
theorem pluginHook_other_hook_eq (chunk : Nat) (parse : List Nat → Option (List String))
    (pfx : String) (inp : HookInput) (hh : inp.handleOk = true)
    (hid : ¬ inp.hookId = HookId.transaction) :
    pluginHook chunk parse pfx inp = emptyHookRes 1 false := by
  unfold pluginHook
  rw [hh]
  simp [hid]

/-- Unfolding equation of pluginHook when creating the productdb directory
fails. -/
theorem pluginHook_mkdirfail_eq (chunk : Nat) (parse : List Nat → Option (List String))
    (pfx : String) (inp : HookInput) (hh : inp.handleOk = true)
    (hid : inp.hookId = HookId.transaction) (hmk : inp.mkdirDbFails = true) :
    pluginHook chunk parse pfx inp = emptyHookRes 1 false := by
  unfold pluginHook
  rw [hh, hid, hmk]
  simp

/-- Unfolding equation of pluginHook when dnf_context_get_repos returns
NULL. -/
theorem pluginHook_norepos_eq (chunk : Nat) (parse : List Nat → Option (List String))
    (pfx : String) (inp : HookInput) (hh : inp.handleOk = true)
    (hid : inp.hookId = HookId.transaction) (hmk : inp.mkdirDbFails = false)
    (hrs : inp.repos = none) :
    pluginHook chunk parse pfx inp = emptyHookRes 1 true := by
  unfold pluginHook
  rw [hh, hid, hmk, hrs]
  simp

/-- Unfolding equation of pluginHook on a full transaction pass. -/
theorem pluginHook_transaction_eq (chunk : Nat) (parse : List Nat → Option (List String))
    (pfx : String) (inp : HookInput) (repos : List Repo) (hh : inp.handleOk = true)
    (hid : inp.hookId = HookId.transaction) (hmk : inp.mkdirDbFails = false)
    (hrs : inp.repos = some repos) :
    pluginHook chunk parse pfx inp =
      { retVal := 1, gotRepos := true, fetched := fetchLoop repos,
        active := (getActive inp.ctx (fetchLoop repos)).active,
        dbAtSweep := (installLoop chunk parse pfx inp.certDirMkFails
          (getActive inp.ctx (fetchLoop repos)).active initProductDb).1,
        written := (installLoop chunk parse pfx inp.certDirMkFails
          (getActive inp.ctx (fetchLoop repos)).active initProductDb).2.1,
        recorded := (installLoop chunk parse pfx inp.certDirMkFails
          (getActive inp.ctx (fetchLoop repos)).active initProductDb).2.2,
        sweepRan := true,
        deleted := removeUnusedProductCerts (installLoop chunk parse pfx inp.certDirMkFails
          (getActive inp.ctx (fetchLoop repos)).active initProductDb).1 inp.certDir,
        dbWritten := true } := by
  unfold pluginHook
  rw [hh, hid, hmk, hrs]
  simp

/-- C5: within a single transaction pass, the certificate sweep consults the
database as mutated by all of the pass's install/record steps, so a
certificate whose product id was recorded in the database during this pass is
never deleted by the sweep of the same pass. -/
theorem pluginHook_recorded_never_swept (chunk : Nat)
    (parse : List Nat → Option (List String)) (pfx : String) (inp : HookInput)
    (p rid : String)
    (hmem : (p, rid) ∈ (pluginHook chunk parse pfx inp).recorded) :
    (p ++ ".pem") ∉ (pluginHook chunk parse pfx inp).deleted := by
  by_cases hh : inp.handleOk = false
  · rw [pluginHook_no_handle_eq chunk parse pfx inp hh] at hmem
    simp [emptyHookRes] at hmem
  · have hh2 : inp.handleOk = true := by
      cases hv : inp.handleOk
      · exact absurd hv hh
      · rfl
    by_cases hid : inp.hookId = HookId.transaction
    · by_cases hmk : inp.mkdirDbFails = true
      · rw [pluginHook_mkdirfail_eq chunk parse pfx inp hh2 hid hmk] at hmem
        simp [emptyHookRes] at hmem
      · have hmk2 : inp.mkdirDbFails = false := by
          cases hv : inp.mkdirDbFails
          · rfl
          · exact absurd hv hmk
        cases hrs : inp.repos with
        | none =>
          rw [pluginHook_norepos_eq chunk parse pfx inp hh2 hid hmk2 hrs] at hmem
          simp [emptyHookRes] at hmem
        | some repos =>
          rw [pluginHook_transaction_eq chunk parse pfx inp repos hh2 hid hmk2 hrs]
            at hmem ⊢
          dsimp only at hmem ⊢
          intro hdel
          have hhas := installLoop_recorded_has chunk parse pfx inp.certDirMkFails
            (getActive inp.ctx (fetchLoop repos)).active initProductDb p rid hmem
          unfold removeUnusedProductCerts at hdel
          have hsw := (List.mem_filter.mp hdel).2
          have hch := (sweepDeletes_eq_true _ _).mp hsw
          rw [gStrndupStem_append_pem] at hch
          rw [hch.2.2] at hhas
          exact Bool.noConfusion hhas
    · rw [pluginHook_other_hook_eq chunk parse pfx inp hh2 hid] at hmem
      simp [emptyHookRes] at hmem

/-- Witness for pluginHook_recorded_never_swept: in the concrete pass the
pair (69, repo-a) is recorded, and 69.pem survives the sweep. -/
theorem pluginHook_recorded_never_swept_witness :
    ("69" ++ ".pem") ∉ (pluginHook 4 wParse "1.3.6.1.4.1.2312.9" wHookInput).deleted :=
  pluginHook_recorded_never_swept 4 wParse "1.3.6.1.4.1.2312.9" wHookInput "69" "repo-a"
    (by decide)

/-- C7 (counterexample): when creating the productdb directory fails, the
transaction hook returns 1 - exactly the value returned by a pass that
completes successfully (the concrete successful pass here runs the sweep and
writes the database) - so the failure is not distinguishable from success in
the hook's return value. -/
theorem pluginHook_mkdir_fail_retval_eq_success :
    (pluginHook 4 wParse "1.3.6.1.4.1.2312.9" wFailHookInput).retVal =
      (pluginHook 4 wParse "1.3.6.1.4.1.2312.9" wHookInput).retVal ∧
    (pluginHook 4 wParse "1.3.6.1.4.1.2312.9" wFailHookInput).sweepRan = false ∧
    (pluginHook 4 wParse "1.3.6.1.4.1.2312.9" wFailHookInput).dbWritten = false ∧
    (pluginHook 4 wParse "1.3.6.1.4.1.2312.9" wHookInput).sweepRan = true ∧
    (pluginHook 4 wParse "1.3.6.1.4.1.2312.9" wHookInput).dbWritten = true := by decide

/-- C7 (amended): if creating the product-database directory fails at the
start of a transaction hook, none of the subsequent steps run - no repository
enumeration, fetch, certificate install, sweep, or database write - but the
hook returns 1, the same value a successfully completed pass returns, so the
failure is not reported distinguishably in the return value. -/
theorem pluginHook_mkdir_fail_aborts (chunk : Nat)
    (parse : List Nat → Option (List String)) (pfx : String) (inp : HookInput)
    (hh : inp.handleOk = true) (hid : inp.hookId = HookId.transaction)
    (hmk : inp.mkdirDbFails = true) :
    (pluginHook chunk parse pfx inp).retVal = 1 ∧
    (pluginHook chunk parse pfx inp).gotRepos = false ∧
    (pluginHook chunk parse pfx inp).fetched = [] ∧
    (pluginHook chunk parse pfx inp).active = [] ∧
    (pluginHook chunk parse pfx inp).written = [] ∧
    (pluginHook chunk parse pfx inp).recorded = [] ∧
    (pluginHook chunk parse pfx inp).sweepRan = false ∧
    (pluginHook chunk parse pfx inp).deleted = [] ∧
    (pluginHook chunk parse pfx inp).dbWritten = false := by
  rw [pluginHook_mkdirfail_eq chunk parse pfx inp hh hid hmk]
  exact ⟨rfl, rfl, rfl, rfl, rfl, rfl, rfl, rfl, rfl⟩

/-- Witness for pluginHook_mkdir_fail_aborts at the concrete failing
environment. -/
theorem pluginHook_mkdir_fail_aborts_witness :
    (pluginHook 4 wParse "1.3.6.1.4.1.2312.9" wFailHookInput).retVal = 1 ∧
    (pluginHook 4 wParse "1.3.6.1.4.1.2312.9" wFailHookInput).gotRepos = false ∧
    (pluginHook 4 wParse "1.3.6.1.4.1.2312.9" wFailHookInput).fetched = [] ∧
    (pluginHook 4 wParse "1.3.6.1.4.1.2312.9" wFailHookInput).active = [] ∧
    (pluginHook 4 wParse "1.3.6.1.4.1.2312.9" wFailHookInput).written = [] ∧
    (pluginHook 4 wParse "1.3.6.1.4.1.2312.9" wFailHookInput).recorded = [] ∧
    (pluginHook 4 wParse "1.3.6.1.4.1.2312.9" wFailHookInput).sweepRan = false ∧
    (pluginHook 4 wParse "1.3.6.1.4.1.2312.9" wFailHookInput).deleted = [] ∧
    (pluginHook 4 wParse "1.3.6.1.4.1.2312.9" wFailHookInput).dbWritten = false :=
  pluginHook_mkdir_fail_aborts 4 wParse "1.3.6.1.4.1.2312.9" wFailHookInput rfl rfl rfl

/-- C9: a transaction pass builds its in-memory database from empty and never
reads the persisted database - the hook's outcome is independent of the
persisted database state - so at sweep time the database holds exactly the
product ids recorded during this pass, and every certificate file with an
all-digit stem whose product id was not recorded in this very pass is deleted
by the sweep, regardless of associations persisted by earlier passes. -/
theorem pluginHook_db_pass_scoped (chunk : Nat)
    (parse : List Nat → Option (List String)) (pfx : String) (inp : HookInput)
    (repos : List Repo) (d : ProductDb) (q f : String)
    (hh : inp.handleOk = true) (hid : inp.hookId = HookId.transaction)
    (hmk : inp.mkdirDbFails = false) (hrs : inp.repos = some repos) :
    pluginHook chunk parse pfx { inp with persistedDb := d } =
      pluginHook chunk parse pfx inp ∧
    (hasProductId (pluginHook chunk parse pfx inp).dbAtSweep q = true ↔
      q ∈ (pluginHook chunk parse pfx inp).recorded.map Prod.fst) ∧
    (f ∈ inp.certDir → gStrHasSuffix f ".pem" = true →
      (gStrndupStem f).data.all (fun c => c.isDigit) = true →
      gStrndupStem f ∉ (pluginHook chunk parse pfx inp).recorded.map Prod.fst →
      f ∈ (pluginHook chunk parse pfx inp).deleted) := by
  refine ⟨by cases inp; rfl, ?_, ?_⟩
  · rw [pluginHook_transaction_eq chunk parse pfx inp repos hh hid hmk hrs]
    dsimp only
    rw [installLoop_has_iff]
    simp [hasProductId_init]
  · intro hf hsuf hdig hnot
    rw [pluginHook_transaction_eq chunk parse pfx inp repos hh hid hmk hrs] at hnot ⊢
    dsimp only at hnot ⊢
    unfold removeUnusedProductCerts
    apply List.mem_filter.mpr
    refine ⟨hf, (sweepDeletes_eq_true _ _).mpr ⟨hsuf, hdig, ?_⟩⟩
    cases hv : hasProductId
        (installLoop chunk parse pfx inp.certDirMkFails
          (getActive inp.ctx (fetchLoop repos)).active initProductDb).1 (gStrndupStem f)
    · rfl
    · exfalso
      apply hnot
      have hm := (installLoop_has_iff chunk parse pfx inp.certDirMkFails
        (getActive inp.ctx (fetchLoop repos)).active initProductDb (gStrndupStem f)).mp hv
      rcases hm with hm | hinit
      · exact hm
      · rw [hasProductId_init] at hinit
        exact Bool.noConfusion hinit

/-- Witness for pluginHook_db_pass_scoped at the concrete pass: the outcome
ignores the persisted database, 69 is in the sweep-time database exactly
because it was recorded this pass, and the stale 99.pem is deleted even
though the persisted database still references product 99. -/
theorem pluginHook_db_pass_scoped_witness :
    pluginHook 4 wParse "1.3.6.1.4.1.2312.9" { wHookInput with persistedDb := initProductDb } =
      pluginHook 4 wParse "1.3.6.1.4.1.2312.9" wHookInput ∧
    (hasProductId (pluginHook 4 wParse "1.3.6.1.4.1.2312.9" wHookInput).dbAtSweep "69" = true ↔
      "69" ∈ (pluginHook 4 wParse "1.3.6.1.4.1.2312.9" wHookInput).recorded.map Prod.fst) ∧
    ("99.pem" ∈ wHookInput.certDir → gStrHasSuffix "99.pem" ".pem" = true →
      (gStrndupStem "99.pem").data.all (fun c => c.isDigit) = true →
      gStrndupStem "99.pem" ∉
        (pluginHook 4 wParse "1.3.6.1.4.1.2312.9" wHookInput).recorded.map Prod.fst →
      "99.pem" ∈ (pluginHook 4 wParse "1.3.6.1.4.1.2312.9" wHookInput).deleted) :=
  pluginHook_db_pass_scoped 4 wParse "1.3.6.1.4.1.2312.9" wHookInput [wRepo] initProductDb
    "69" "99.pem" rfl rfl rfl rfl
